import Mathlib

/-!
Verification of the chrono-filer file-encryption engine
(`src/core/encryption_engine.py`, class `EncryptionEngine`).

Modelling conventions:
* Python `bytes` and `str` values are both modelled as `List Nat`
  (`Str`): a string is its list of character codes.  `strOf` converts a
  Lean string literal to this representation for readable statements.
* The external cryptographic and serialization libraries
  (`cryptography`'s AES-CBC and PBKDF2, `json`, `base64`) are not code
  of this repository; they are abstracted as the fields of a
  `CryptoEnv`, whose laws record only the interface facts the engine
  relies on (CBC decryption inverts encryption on block-aligned input,
  ciphertext length equals input length, JSON/base64 serialization
  round-trips).  A concrete executable instance `env0` witnesses the
  laws.
* Randomness (`secrets.token_bytes`) is modelled by passing the salt
  and IV as explicit arguments to `encrypt_file`.
* Python exceptions are modelled by `Except PyErr`; the `PyErr`
  constructors are named after the distinct exceptions the engine can
  raise (doc comments give the exact Python exception and message).
-/

namespace ChronoFiler

/-- Python `bytes` and `str` values as lists of byte / character codes. -/
abbrev Str := List Nat

/-- Character codes of a Lean string literal, for readable statements. -/
def strOf (s : String) : List Nat := s.toList.map Char.toNat

/-- `EncryptionEngine.ITERATIONS = 100000` (PBKDF2 iterations, class constant). -/
def ITERATIONS : Nat := 100000

/-- `EncryptionEngine.KEY_SIZE = 32` (256-bit key). -/
def KEY_SIZE : Nat := 32

/-- Parsed JSON metadata object.  The Python code builds an untyped dict;
fields are `Option` so that a parsed object can lack any of them
(`metadata.get` versus `metadata[...]` is then modelled faithfully).
`salt` and `iv` hold the base64 *strings* stored in the JSON. -/
structure MetaDict where
  original_filename : Option Str := none
  original_size : Option Nat := none
  encrypted_size : Option Nat := none
  salt : Option Str := none
  iv : Option Str := none
  algorithm : Option Str := none
  key_derivation : Option Str := none
  iterations : Option Nat := none
  deriving DecidableEq, Repr

/-- Metadata field names that are accessed with `metadata[...]` (raising
`KeyError` when absent). -/
inductive MetaField where
  | salt
  | iv
  | original_filename
  deriving DecidableEq, Repr

/-- The distinct Python exceptions the engine raises or propagates. -/
inductive PyErr where
  /-- `ValueError("Invalid encrypted file format")` — short length prefix. -/
  | invalidFormat
  /-- `ValueError("Invalid metadata in encrypted file")` — JSON/unicode decode failure. -/
  | invalidMetadata
  /-- `ValueError("Unsupported encryption algorithm")` — wrong/missing `algorithm`. -/
  | unsupportedAlgorithm
  /-- `KeyError` from `metadata[field]` on a missing required field. -/
  | keyError (field : MetaField)
  /-- `binascii.Error` propagating from `base64.b64decode`. -/
  | binasciiError
  /-- `ValueError("Decryption failed - invalid password or corrupted file")`. -/
  | decryptionFailed
  /-- `ValueError("Invalid padding")` raised by `_unpad_data`. -/
  | invalidPadding
  /-- An `OSError` (e.g. `PermissionError`) propagating from file I/O. -/
  | osError
  deriving DecidableEq, Repr

deriving instance DecidableEq for Except

/-- Abstraction of the external libraries used by the engine: PBKDF2
(`password, salt, iterations, length`), AES-256-CBC over whole padded
buffers (`key, iv, data`), JSON serialization of the metadata object and
base64.  The laws state exactly the library facts the engine relies on. -/
structure CryptoEnv where
  pbkdf2 : Str → List Nat → Nat → Nat → List Nat
  cbcEnc : List Nat → List Nat → List Nat → List Nat
  cbcDec : List Nat → List Nat → List Nat → Option (List Nat)
  cbcUpdate : List Nat → List Nat → List Nat → List Nat
  jsonEmit : MetaDict → List Nat
  jsonParse : List Nat → Option MetaDict
  b64encode : List Nat → Str
  b64decode : Str → Option (List Nat)
  enc_len : ∀ k iv d, (cbcEnc k iv d).length = d.length
  dec_enc : ∀ k iv d, d.length % 16 = 0 → cbcDec k iv (cbcEnc k iv d) = some d
  json_roundtrip : ∀ m, jsonParse (jsonEmit m) = some m
  b64_roundtrip : ∀ bs, b64decode (b64encode bs) = some bs

/-- `metadata_length.to_bytes(4, byteorder='big')`. -/
def toBytes4 (n : Nat) : List Nat :=
  [n / 2 ^ 24 % 256, n / 2 ^ 16 % 256, n / 2 ^ 8 % 256, n % 256]

/-- `int.from_bytes(bs, byteorder='big')`. -/
def fromBytesBE (bs : List Nat) : Nat :=
  bs.foldl (fun a b => a * 256 + b) 0

/-- `EncryptionEngine._pad_data`: PKCS7 padding,
`padding_length = 16 - (len(data) % 16)`, append that many bytes each
holding the padding length. -/
def pad_data (data : List Nat) : List Nat :=
  let padding_length := 16 - data.length % 16
  data ++ List.replicate padding_length padding_length

/-- Python slice `data[:-p]`: for `p = 0` this is `data[:0] = b''`
(because `-0 == 0`), otherwise the first `len(data) - p` bytes. -/
def pySliceToNeg (data : List Nat) (p : Nat) : List Nat :=
  if p = 0 then [] else data.take (data.length - p)

/-- `EncryptionEngine._unpad_data`: returns `data` unchanged when empty;
otherwise reads the last byte as the padding length, raises
`ValueError("Invalid padding")` when it exceeds 16, and returns
`data[:-padding_length]` otherwise. -/
def unpad_data (data : List Nat) : Except PyErr (List Nat) :=
  if data = [] then .ok data
  else
    let padding_length := data.getLastD 0
    if padding_length > 16 then .error .invalidPadding
    else .ok (pySliceToNeg data padding_length)

/-- `EncryptionEngine._derive_key`: PBKDF2-SHA256 with `length = KEY_SIZE`
and `iterations = self.ITERATIONS` (the class constant — not a value
taken from any container metadata). -/
def derive_key (env : CryptoEnv) (password : Str) (salt : List Nat) : List Nat :=
  env.pbkdf2 password salt ITERATIONS KEY_SIZE

/-- The metadata dict built by `EncryptionEngine.encrypt_file` (lines 76-85). -/
def encryptMetadata (env : CryptoEnv) (srcName : Str) (plaintext password salt iv : List Nat) :
    MetaDict :=
  let key := derive_key env password salt
  let ciphertext := env.cbcEnc key iv (pad_data plaintext)
  { original_filename := some srcName
    original_size := some plaintext.length
    encrypted_size := some ciphertext.length
    salt := some (env.b64encode salt)
    iv := some (env.b64encode iv)
    algorithm := some (strOf "AES-256-CBC")
    key_derivation := some (strOf "PBKDF2-SHA256")
    iterations := some ITERATIONS }

/-- `EncryptionEngine.encrypt_file`, with the file contents, the random
salt and the random IV passed explicitly: derives the key, pads and
encrypts, and produces the container bytes
`len(metadata).to_bytes(4,'big') ++ metadata_json ++ ciphertext`. -/
def encrypt_file (env : CryptoEnv) (srcName : Str) (plaintext password salt iv : List Nat) :
    List Nat :=
  let key := derive_key env password salt
  let ciphertext := env.cbcEnc key iv (pad_data plaintext)
  let metadata_bytes := env.jsonEmit (encryptMetadata env srcName plaintext password salt iv)
  toBytes4 metadata_bytes.length ++ metadata_bytes ++ ciphertext

/-- The part of `EncryptionEngine.decrypt_file` that runs after the JSON
metadata has been parsed (lines 141-159): algorithm check, salt/iv
extraction (`metadata[...]`, so a missing field raises `KeyError`),
base64 decoding, key derivation via `_derive_key`, CBC decryption and
unpadding; any exception from the decrypt/unpad block is converted to
`ValueError("Decryption failed - invalid password or corrupted file")`. -/
def decryptFromMeta (env : CryptoEnv) (metadata : MetaDict) (ciphertext : List Nat)
    (password : Str) : Except PyErr (MetaDict × List Nat) :=
  if metadata.algorithm ≠ some (strOf "AES-256-CBC") then .error .unsupportedAlgorithm
  else match metadata.salt with
  | none => .error (.keyError .salt)
  | some saltB64 =>
    match env.b64decode saltB64 with
    | none => .error .binasciiError
    | some salt =>
      match metadata.iv with
      | none => .error (.keyError .iv)
      | some ivB64 =>
        match env.b64decode ivB64 with
        | none => .error .binasciiError
        | some iv =>
          match env.cbcDec (derive_key env password salt) iv ciphertext with
          | none => .error .decryptionFailed
          | some padded_plaintext =>
            match unpad_data padded_plaintext with
            | .error _ => .error .decryptionFailed
            | .ok plaintext => .ok (metadata, plaintext)

/-- Lines 124-159 of `EncryptionEngine.decrypt_file`: read the 4-byte
big-endian length prefix (`ValueError("Invalid encrypted file format")`
when fewer than 4 bytes are available), read that many metadata bytes
(the rest of the file is the ciphertext), parse the metadata as JSON
(`ValueError("Invalid metadata in encrypted file")` on decode failure),
then hand over to `decryptFromMeta`. -/
def decryptData (env : CryptoEnv) (file : List Nat) (password : Str) :
    Except PyErr (MetaDict × List Nat) :=
  if (file.take 4).length ≠ 4 then .error .invalidFormat
  else
    let metadata_length := fromBytesBE (file.take 4)
    match env.jsonParse ((file.drop 4).take metadata_length) with
    | none => .error .invalidMetadata
    | some metadata =>
      decryptFromMeta env metadata ((file.drop 4).drop metadata_length) password

/-- Index of the last occurrence of `'.'` (code 46) in a name, as in
Python's `str.rfind('.')` (but `none` instead of `-1`). -/
def rfindDot : List Nat → Option Nat
  | [] => none
  | c :: cs =>
    match rfindDot cs with
    | some i => some (i + 1)
    | none => if c = 46 then some 0 else none

/-- `pathlib.PurePath.suffix`: the substring from the last dot, provided
that dot is neither the leading character nor the final one. -/
def pySuffix (name : Str) : Str :=
  match rfindDot name with
  | some i => if 0 < i ∧ i < name.length - 1 then name.drop i else []
  | none => []

/-- `pathlib.PurePath.stem`: the name with `pySuffix` removed. -/
def pyStem (name : Str) : Str :=
  match rfindDot name with
  | some i => if 0 < i ∧ i < name.length - 1 then name.take i else name
  | none => name

/-- Character codes of a decimal numeral, i.e. Python's `str(c)` for a
natural number, via Lean's `Nat.repr`. -/
def natStr (c : Nat) : Str := strOf (Nat.repr c)

/-- The candidate name `f"{base_name}_{counter}{extension}"`. -/
def candidateName (base ext : Str) (counter : Nat) : Str :=
  base ++ [95] ++ natStr counter ++ ext

/-- The `while output_path.exists()` loop of `decrypt_file`
(lines 172-174), with explicit fuel: try `base_1ext`, `base_2ext`, …
until a name not present in the directory listing `fs` is found. -/
def collisionLoop (fs : List Str) (base ext : Str) : Nat → Nat → Str
  | 0, counter => candidateName base ext counter
  | fuel + 1, counter =>
    let cand := candidateName base ext counter
    if cand ∈ fs then collisionLoop fs base ext fuel (counter + 1) else cand

/-- Lines 166-174 of `decrypt_file`: if the resolved output name exists
in the directory listing `fs`, compute `stem`/`suffix` once and append
`_1`, `_2`, … until a free name is found. -/
def resolveOutputName (fs : List Str) (name : Str) : Str :=
  if name ∈ fs then
    collisionLoop fs (pyStem name) (pySuffix name) (fs.length + 1) 1
  else name

/-- `EncryptionEngine.decrypt_file` with the directory listing `fs` of
the output directory passed explicitly: decrypts the container, resolves
the default output name `metadata['original_filename']` (a `KeyError`
when absent), avoids collisions, and returns the resolved output name
together with the plaintext written to it. -/
def decrypt_file (env : CryptoEnv) (fs : List Str) (file : List Nat) (password : Str) :
    Except PyErr (Str × List Nat) :=
  match decryptData env file password with
  | .error e => .error e
  | .ok (metadata, plaintext) =>
    match metadata.original_filename with
    | none => .error (.keyError .original_filename)
    | some fname => .ok (resolveOutputName fs fname, plaintext)

/-- `EncryptionEngine.verify_encrypted_file`: the body repeats the parse,
key-derivation, full decrypt and unpad pipeline of `decrypt_file`
(lines 314-346 are verbatim lines 124-157), then compares the recovered
plaintext length with `metadata.get('original_size', 0)`; the whole body
is wrapped in `try: ... except Exception: return False`. -/
def verify_encrypted_file (env : CryptoEnv) (file : List Nat) (password : Str) : Bool :=
  match decryptData env file password with
  | .ok (metadata, plaintext) => plaintext.length == metadata.original_size.getD 0
  | .error _ => false

/-- Success of the parsing stages of `verify_password`: a full 4-byte
length prefix, JSON-parsable metadata, and present, base64-decodable
`salt` and `iv` fields.  (`verify_password` performs no algorithm
check.)  This predicate deliberately places no constraint on the
*length* of the decoded IV: it states the hypothesis of the original
claim, which `verify_password` falsifies when the IV is not 16 bytes. -/
def vpParseOk (env : CryptoEnv) (file : List Nat) : Bool :=
  (file.take 4).length == 4 &&
  match env.jsonParse ((file.drop 4).take (fromBytesBE (file.take 4))) with
  | none => false
  | some metadata =>
    (match metadata.salt with
     | none => false
     | some saltB64 => (env.b64decode saltB64).isSome) &&
    (match metadata.iv with
     | none => false
     | some ivB64 => (env.b64decode ivB64).isSome)

/-- `EncryptionEngine.verify_password`: parses the metadata, derives the
key, builds the cipher — `Cipher(algorithms.AES(key), modes.CBC(iv))`
validates the IV size at construction and raises
`ValueError("Invalid IV size (...) for CBC")` for any IV that is not 16
bytes, still inside this function's `try` — then reads the first 32
ciphertext bytes and feeds them to `decryptor.update` (whose result is
discarded and which cannot raise), returning `True`; any exception on
the way yields `False`.  (`algorithms.AES(key)` cannot fail here: the
key always comes from `_derive_key`, whose PBKDF2 output length is the
valid `KEY_SIZE = 32`.) -/
def verify_password (env : CryptoEnv) (file : List Nat) (password : Str) : Bool :=
  if (file.take 4).length ≠ 4 then false
  else
    let metadata_length := fromBytesBE (file.take 4)
    match env.jsonParse ((file.drop 4).take metadata_length) with
    | none => false
    | some metadata =>
      match metadata.salt with
      | none => false
      | some saltB64 =>
        match env.b64decode saltB64 with
        | none => false
        | some salt =>
          let key := derive_key env password salt
          match metadata.iv with
          | none => false
          | some ivB64 =>
            match env.b64decode ivB64 with
            | none => false
            | some iv =>
              if iv.length ≠ 16 then false
              else
                let test_data := ((file.drop 4).drop metadata_length).take 32
                let _ := if test_data.length > 0 then env.cbcUpdate key iv test_data else []
                true

/-- Exact success condition of `verify_password`: the parsing stages of
`vpParseOk` succeed **and** the decoded IV is 16 bytes long (the bound
`modes.CBC` enforces at cipher construction). -/
def vpSucceeds (env : CryptoEnv) (file : List Nat) : Bool :=
  (file.take 4).length == 4 &&
  match env.jsonParse ((file.drop 4).take (fromBytesBE (file.take 4))) with
  | none => false
  | some metadata =>
    (match metadata.salt with
     | none => false
     | some saltB64 => (env.b64decode saltB64).isSome) &&
    (match metadata.iv with
     | none => false
     | some ivB64 =>
       match env.b64decode ivB64 with
       | none => false
       | some iv => iv.length == 16)

/-- A filesystem path as seen by `is_encrypted_file`: whether it exists,
whether it is a regular file, its base name and its contents. -/
structure PyFile where
  pathExists : Bool
  isFile : Bool
  name : Str
  content : List Nat
  deriving DecidableEq, Repr

/-- Python's `str.lower()` restricted to ASCII letters. -/
def pyToLower (s : Str) : Str :=
  s.map fun c => if 65 ≤ c ∧ c ≤ 90 then c + 32 else c

/-- `EncryptionEngine.is_encrypted_file`: `False` for missing paths and
non-regular files; `True` immediately when the lower-cased filename
suffix is `.encrypted`; otherwise sniffs the content (4-byte prefix,
metadata length at most 1 MiB, untruncated metadata, JSON parse, and
presence of the four required fields). -/
def is_encrypted_file (env : CryptoEnv) (f : PyFile) : Bool :=
  if ¬ f.pathExists || ¬ f.isFile then false
  else if pyToLower (pySuffix f.name) == strOf ".encrypted" then true
  else
    let metadata_length_bytes := f.content.take 4
    if metadata_length_bytes.length ≠ 4 then false
    else
      let metadata_length := fromBytesBE metadata_length_bytes
      if metadata_length > 1024 * 1024 then false
      else
        let metadata_bytes := (f.content.drop 4).take metadata_length
        if metadata_bytes.length ≠ metadata_length then false
        else
          match env.jsonParse metadata_bytes with
          | none => false
          | some m =>
            m.algorithm.isSome && m.salt.isSome && m.iv.isSome && m.original_filename.isSome

/-- The state of a batch input path: not a regular file (missing or a
directory), a readable regular file with some contents, or a regular
file whose `open` raises an `OSError` (e.g. `PermissionError`). -/
inductive PathState where
  | notFile
  | readable (content : List Nat)
  | unreadable
  deriving DecidableEq, Repr

/-- `pathlib.Path.is_file()` for a `PathState`. -/
def PathState.isFileB : PathState → Bool
  | .notFile => false
  | .readable _ => true
  | .unreadable => true

/-- `encrypt_file` as invoked on a path: reading an unreadable file
raises an `OSError`, otherwise the pure `encrypt_file` runs. -/
def encryptPath (env : CryptoEnv) (st : PathState) (srcName : Str)
    (password salt iv : List Nat) : Except PyErr (List Nat) :=
  match st with
  | .readable content => .ok (encrypt_file env srcName content password salt iv)
  | _ => .error .osError

/-- `EncryptionEngine.batch_encrypt_files` (lines 500-511): iterate over
the inputs, skip entries for which `is_file()` is false, call
`encrypt_file` on the rest and collect the output names
`f"{source_path.name}.encrypted"`.  There is no `try`/`except` around
the `encrypt_file` call, so an exception from one entry propagates and
aborts the whole batch. -/
def batch_encrypt_files (env : CryptoEnv) (password salt iv : List Nat) :
    List (Str × PathState) → Except PyErr (List Str)
  | [] => .ok []
  | (srcName, st) :: rest =>
    if st.isFileB then
      match encryptPath env st srcName password salt iv with
      | .error e => .error e
      | .ok _ =>
        match batch_encrypt_files env password salt iv rest with
        | .error e => .error e
        | .ok outs => .ok ((srcName ++ strOf ".encrypted") :: outs)
      else batch_encrypt_files env password salt iv rest

/-! ### A concrete executable instance of `CryptoEnv`

The engine only relies on the interface laws of `CryptoEnv`; `env0`
realizes them with simple executable stand-ins (a length-prefixed
serializer for the metadata object, a key-dependent byte-shift cipher,
and the identity for base64), so that theorems quantified over an
environment can be exercised on concrete data. -/

/-- Length-prefixed encoding of a byte list. -/
def encList (xs : List Nat) : List Nat := xs.length :: xs

/-- Decoder for `encList`, returning the decoded list and the remainder. -/
def decList : List Nat → Option (List Nat × List Nat)
  | [] => none
  | n :: bs => if n ≤ bs.length then some (bs.take n, bs.drop n) else none

/-- Tagged encoding of an optional byte list. -/
def encOptList : Option (List Nat) → List Nat
  | none => [0]
  | some xs => 1 :: encList xs

/-- Decoder for `encOptList`. -/
def decOptList : List Nat → Option (Option (List Nat) × List Nat)
  | 0 :: bs => some (none, bs)
  | 1 :: bs => (decList bs).map fun p => (some p.1, p.2)
  | _ => none

/-- Tagged encoding of an optional natural number. -/
def encOptNat : Option Nat → List Nat
  | none => [0]
  | some n => [1, n]

/-- Decoder for `encOptNat`. -/
def decOptNat : List Nat → Option (Option Nat × List Nat)
  | 0 :: bs => some (none, bs)
  | 1 :: n :: bs => some (some n, bs)
  | _ => none

/-- Serializer of the metadata object used by `env0`. -/
def jsonEmit0 (m : MetaDict) : List Nat :=
  encOptList m.original_filename ++ encOptNat m.original_size ++
  encOptNat m.encrypted_size ++ encOptList m.salt ++ encOptList m.iv ++
  encOptList m.algorithm ++ encOptList m.key_derivation ++ encOptNat m.iterations

/-- Deserializer matching `jsonEmit0`; any leftover bytes make it fail. -/
def jsonParse0 (bs : List Nat) : Option MetaDict := do
  let (original_filename, bs) ← decOptList bs
  let (original_size, bs) ← decOptNat bs
  let (encrypted_size, bs) ← decOptNat bs
  let (salt, bs) ← decOptList bs
  let (iv, bs) ← decOptList bs
  let (algorithm, bs) ← decOptList bs
  let (key_derivation, bs) ← decOptList bs
  let (iterations, bs) ← decOptNat bs
  if bs = [] then
    some { original_filename, original_size, encrypted_size, salt, iv,
           algorithm, key_derivation, iterations }
  else none

/-- Key stand-in for `env0`: determined by password, salt, iteration
count and requested length. -/
def pbkdf2_0 (p s : List Nat) (n len : Nat) : List Nat := [p.sum + s.sum + n + len]

/-- Byte shift used by the `env0` cipher, depending on key and IV. -/
def shift0 (k iv : List Nat) : Nat := k.sum + iv.sum

/-- `env0` block cipher: shift every byte by a key/IV-dependent amount. -/
def cbcEnc0 (k iv d : List Nat) : List Nat := d.map fun b => b + shift0 k iv

/-- `env0` block decipher: undo the shift; fail (as the real library's
`finalize` does) when the input length is not a multiple of 16. -/
def cbcDec0 (k iv d : List Nat) : Option (List Nat) :=
  if d.length % 16 = 0 then some (d.map fun b => b - shift0 k iv) else none

theorem decList_encList (xs r : List Nat) : decList (encList xs ++ r) = some (xs, r) := by
  simp [encList, decList]

theorem decOptList_encOptList (o : Option (List Nat)) (r : List Nat) :
    decOptList (encOptList o ++ r) = some (o, r) := by
  cases o with
  | none => simp [encOptList, decOptList]
  | some xs => simp [encOptList, decOptList, decList_encList]

theorem decOptNat_encOptNat (o : Option Nat) (r : List Nat) :
    decOptNat (encOptNat o ++ r) = some (o, r) := by
  cases o with
  | none => simp [encOptNat, decOptNat]
  | some n => simp [encOptNat, decOptNat]

theorem decOptNat_encOptNat_nil (o : Option Nat) : decOptNat (encOptNat o) = some (o, []) := by
  simpa using decOptNat_encOptNat o []

theorem jsonParse0_jsonEmit0 (m : MetaDict) : jsonParse0 (jsonEmit0 m) = some m := by
  simp [jsonEmit0, jsonParse0, List.append_assoc, decOptList_encOptList, decOptNat_encOptNat,
    decOptNat_encOptNat_nil, Option.bind_eq_bind]

/-- The concrete environment. -/
def env0 : CryptoEnv where
  pbkdf2 := pbkdf2_0
  cbcEnc := cbcEnc0
  cbcDec := cbcDec0
  cbcUpdate := cbcEnc0
  jsonEmit := jsonEmit0
  jsonParse := jsonParse0
  b64encode := id
  b64decode := some
  enc_len := by intro k iv d; simp [cbcEnc0]
  dec_enc := by
    intro k iv d h
    simp [cbcEnc0, cbcDec0, h, List.map_map, Function.comp_def]
  json_roundtrip := jsonParse0_jsonEmit0
  b64_roundtrip := by intro bs; rfl

/-! ### Helper lemmas -/

theorem toBytes4_length (n : Nat) : (toBytes4 n).length = 4 := rfl

theorem fromBytesBE_toBytes4 (n : Nat) (h : n < 2 ^ 32) : fromBytesBE (toBytes4 n) = n := by
  simp [toBytes4, fromBytesBE, List.foldl]
  omega

theorem take4_append (n : Nat) (r : List Nat) : (toBytes4 n ++ r).take 4 = toBytes4 n := by
  simp [toBytes4]

theorem drop4_append (n : Nat) (r : List Nat) : (toBytes4 n ++ r).drop 4 = r := by
  simp [toBytes4]

theorem pad_data_eq (d : List Nat) :
    pad_data d = d ++ List.replicate (16 - d.length % 16) (16 - d.length % 16) := rfl

theorem pad_data_length (d : List Nat) :
    (pad_data d).length = d.length + (16 - d.length % 16) := by
  simp [pad_data]

theorem pad_data_length_mod (d : List Nat) : (pad_data d).length % 16 = 0 := by
  rw [pad_data_length]
  omega

theorem unpad_pad (d : List Nat) : unpad_data (pad_data d) = .ok d := by
  have hp : 1 ≤ 16 - d.length % 16 ∧ 16 - d.length % 16 ≤ 16 := by omega
  rcases Nat.exists_eq_add_of_le hp.1 with ⟨q, hq⟩
  have hrep : List.replicate (16 - d.length % 16) (16 - d.length % 16) =
      List.replicate q (16 - d.length % 16) ++ [16 - d.length % 16] := by
    rw [hq, Nat.add_comm 1 q, List.replicate_succ']
  have hne : pad_data d ≠ [] := by
    intro h
    have := congrArg List.length h
    rw [pad_data_length] at this
    simp at this
    omega
  have hlast : (pad_data d).getLastD 0 = 16 - d.length % 16 := by
    rw [pad_data_eq, hrep, ← List.append_assoc]
    simp [List.getLastD_concat]
  rw [unpad_data, if_neg hne, hlast]
  rw [if_neg (by omega)]
  congr 1
  rw [pySliceToNeg, if_neg (by omega), pad_data_length]
  have : d.length + (16 - d.length % 16) - (16 - d.length % 16) = d.length := by omega
  rw [this, pad_data_eq, List.take_left]

theorem decryptData_encrypt (env : CryptoEnv) (srcName : Str) (f pw salt iv : List Nat)
    (hlen : (env.jsonEmit (encryptMetadata env srcName f pw salt iv)).length < 2 ^ 32) :
    decryptData env (encrypt_file env srcName f pw salt iv) pw =
      .ok (encryptMetadata env srcName f pw salt iv, f) := by
  have hdec := env.dec_enc (env.pbkdf2 pw salt ITERATIONS KEY_SIZE) iv (pad_data f)
    (pad_data_length_mod f)
  have hb1 := env.b64_roundtrip salt
  have hb2 := env.b64_roundtrip iv
  simp only [decryptData, encrypt_file, List.append_assoc, take4_append, drop4_append,
    toBytes4_length, fromBytesBE_toBytes4 _ hlen, List.take_left, List.drop_left,
    env.json_roundtrip]
  simp [decryptFromMeta, encryptMetadata, derive_key, hb1, hb2, hdec, unpad_pad]


theorem resolveOutputName_not_mem (fs : List Str) (name : Str) (h : name ∉ fs) :
    resolveOutputName fs name = name := by
  simp [resolveOutputName, h]

theorem resolveOutputName_first (fs : List Str) (name : Str) (h1 : name ∈ fs)
    (h2 : candidateName (pyStem name) (pySuffix name) 1 ∉ fs) :
    resolveOutputName fs name = candidateName (pyStem name) (pySuffix name) 1 := by
  simp only [resolveOutputName, if_pos h1]
  obtain ⟨a, l, rfl⟩ : ∃ a l, fs = a :: l := by
    cases fs with
    | nil => cases h1
    | cons a l => exact ⟨a, l, rfl⟩
  show collisionLoop (a :: l) _ _ (l.length + 1 + 1) 1 = _
  simp only [collisionLoop, if_neg h2]

theorem resolveOutputName_second (fs : List Str) (name : Str) (h1 : name ∈ fs)
    (h2 : candidateName (pyStem name) (pySuffix name) 1 ∈ fs)
    (h3 : candidateName (pyStem name) (pySuffix name) 2 ∉ fs) :
    resolveOutputName fs name = candidateName (pyStem name) (pySuffix name) 2 := by
  simp only [resolveOutputName, if_pos h1]
  obtain ⟨a, l, rfl⟩ : ∃ a l, fs = a :: l := by
    cases fs with
    | nil => cases h1
    | cons a l => exact ⟨a, l, rfl⟩
  show collisionLoop (a :: l) _ _ (l.length + 1 + 1) 1 = _
  rw [collisionLoop]
  simp only [if_pos h2]
  rw [collisionLoop]
  simp only [if_neg h3]



theorem verify_password_eq_vpSucceeds (env : CryptoEnv) (file : List Nat) (password : Str) :
    verify_password env file password = vpSucceeds env file := by
  unfold verify_password vpSucceeds
  by_cases h4 : (file.take 4).length = 4
  · simp only [h4, ne_eq, not_true_eq_false, if_neg, not_false_eq_true, reduceIte,
      beq_self_eq_true, Bool.true_and]
    cases hj : env.jsonParse ((file.drop 4).take (fromBytesBE (file.take 4))) with
    | none => rfl
    | some m =>
      cases hs : m.salt with
      | none => simp [hs]
      | some sb =>
        cases hb : env.b64decode sb with
        | none => simp [hs, hb]
        | some s =>
          cases hi : m.iv with
          | none => simp [hs, hb, hi]
          | some ib =>
            cases hb2 : env.b64decode ib with
            | none => simp [hs, hb, hi, hb2]
            | some i =>
              by_cases hlen : i.length = 16
              · simp [hs, hb, hi, hb2, hlen]
              · simp [hs, hb, hi, hb2, hlen]
  · have hlt : file.length < 4 := by
      rw [List.length_take] at h4
      omega
    have hne : file.length ≠ 4 := by omega
    simp [hlt, Nat.min_eq_right (Nat.le_of_lt hlt), hne]

theorem decryptFromMeta_iterations (env : CryptoEnv) (m : MetaDict) (ct : List Nat)
    (pw : Str) (n1 n2 : Option Nat) :
    (decryptFromMeta env { m with iterations := n1 } ct pw).map Prod.snd =
      (decryptFromMeta env { m with iterations := n2 } ct pw).map Prod.snd := by
  rcases m with ⟨f, os, es, s, iv0, alg, kd, it⟩
  simp only [decryptFromMeta]
  by_cases halg : alg = some (strOf "AES-256-CBC")
  · simp only [halg, ne_eq, not_true_eq_false, reduceIte]
    cases s with
    | none => rfl
    | some sb =>
      cases hb : env.b64decode sb with
      | none => simp [hb]
      | some slt =>
        cases iv0 with
        | none => simp [hb]
        | some ib =>
          cases hb2 : env.b64decode ib with
          | none => simp [hb, hb2]
          | some ivv =>
            cases hc : env.cbcDec (derive_key env pw slt) ivv ct with
            | none => simp [hb, hb2, hc]
            | some padded =>
              cases hu : unpad_data padded with
              | error e => simp [hb, hb2, hc, hu]
              | ok pt => simp [hb, hb2, hc, hu, Except.map]
  · simp [halg]

/-! ### Claim theorems -/

/-- C1: for every byte sequence `f` (of any length) and every password
`pw`, decrypting the container produced by `encrypt_file f pw` with
`decrypt_file` and the same password yields exactly the original bytes
`f`.  The only side condition is the one Python's
`to_bytes(4, 'big')` itself imposes: the serialized metadata fits the
32-bit length prefix. -/
theorem C1_round_trip (env : CryptoEnv) (fs : List Str) (srcName : Str)
    (f pw salt iv : List Nat)
    (hlen : (env.jsonEmit (encryptMetadata env srcName f pw salt iv)).length < 2 ^ 32) :
    ∃ out, decrypt_file env fs (encrypt_file env srcName f pw salt iv) pw =
      .ok (out, f) := by
  refine ⟨resolveOutputName fs srcName, ?_⟩
  simp [decrypt_file, decryptData_encrypt env srcName f pw salt iv hlen, encryptMetadata]

theorem C1_round_trip_witness :
    (∃ out, decrypt_file env0 [] (encrypt_file env0 (strOf "a.txt") [] (strOf "pw") [2] [3])
      (strOf "pw") = .ok (out, [])) ∧
    (∃ out, decrypt_file env0 [] (encrypt_file env0 (strOf "a.txt") [5] (strOf "pw") [2] [3])
      (strOf "pw") = .ok (out, [5])) ∧
    (∃ out, decrypt_file env0 []
      (encrypt_file env0 (strOf "a.txt") (List.replicate 15 9) (strOf "pw") [2] [3])
      (strOf "pw") = .ok (out, List.replicate 15 9)) ∧
    (∃ out, decrypt_file env0 []
      (encrypt_file env0 (strOf "a.txt") (List.replicate 16 9) (strOf "pw") [2] [3])
      (strOf "pw") = .ok (out, List.replicate 16 9)) ∧
    (∃ out, decrypt_file env0 []
      (encrypt_file env0 (strOf "a.txt") (List.replicate 17 9) (strOf "pw") [2] [3])
      (strOf "pw") = .ok (out, List.replicate 17 9)) :=
  ⟨C1_round_trip env0 [] (strOf "a.txt") [] (strOf "pw") [2] [3] (by decide),
   C1_round_trip env0 [] (strOf "a.txt") [5] (strOf "pw") [2] [3] (by decide),
   C1_round_trip env0 [] (strOf "a.txt") (List.replicate 15 9) (strOf "pw") [2] [3] (by decide),
   C1_round_trip env0 [] (strOf "a.txt") (List.replicate 16 9) (strOf "pw") [2] [3] (by decide),
   C1_round_trip env0 [] (strOf "a.txt") (List.replicate 17 9) (strOf "pw") [2] [3] (by decide)⟩

/-- C2: contrary to the claim, `_unpad_data` does **not** raise on a
claimed pad length of 0: for a decrypted buffer whose last byte is 0 it
evaluates `data[:-0] == b''` and returns an empty plaintext instead of
failing (the code only checks `padding_length > 16`, a slip against the
documented PKCS7 bound check of the spec).  A pad byte above the block
size is rejected as specified. -/
theorem C2_unpad_zero_pad_byte :
    unpad_data (List.replicate 15 1 ++ [0]) = .ok [] ∧
    unpad_data (List.replicate 16 17) = .error .invalidPadding := by
  decide

/-- Salt of the handcrafted iteration-count container used against C3. -/
def c3Salt : List Nat := [2]

/-- IV of the handcrafted iteration-count container. -/
def c3Iv : List Nat := [3]

/-- Password of the handcrafted iteration-count container. -/
def c3Pw : Str := [1]

/-- Metadata of a container whose stored iteration count is 5. -/
def c3Meta : MetaDict :=
  { original_filename := some (strOf "f.txt")
    original_size := some 1
    encrypted_size := some 16
    salt := some c3Salt
    iv := some c3Iv
    algorithm := some (strOf "AES-256-CBC")
    key_derivation := some (strOf "PBKDF2-SHA256")
    iterations := some 5 }

/-- A container for plaintext `[7]` whose ciphertext was produced under
the key derived with the iteration count 5 that its metadata stores. -/
def c3File : List Nat :=
  toBytes4 (jsonEmit0 c3Meta).length ++ jsonEmit0 c3Meta ++
    cbcEnc0 (pbkdf2_0 c3Pw c3Salt 5 KEY_SIZE) c3Iv (pad_data [7])

/-- C3 counterexample: `decrypt_file` does not derive the key from the
iteration count stored in the container metadata.  A container whose
metadata stores `iterations = 5` and whose ciphertext was produced under
the matching 5-iteration key does not decrypt back to its plaintext
`[7]`: the engine derives the key with the process-wide constant
`ITERATIONS`, so the key used differs from the stored-count key and the
decryption returns garbage (here the empty list). -/
theorem C3_iterations_counterexample :
    derive_key env0 c3Pw c3Salt ≠ env0.pbkdf2 c3Pw c3Salt 5 KEY_SIZE ∧
    decryptData env0 c3File c3Pw = .ok (c3Meta, []) ∧
    ([] : List Nat) ≠ [7] := by
  decide

/-- C3 amended: during decryption the key is derived from the stored
salt and the process-wide constant `ITERATIONS` (and `KEY_SIZE`); the
`iterations` value stored in the container metadata is ignored — the
recovered plaintext is the same whatever that field holds. -/
theorem C3_iterations_constant (env : CryptoEnv) (m : MetaDict) (ct : List Nat) (pw : Str)
    (n1 n2 : Option Nat) :
    (∀ salt, derive_key env pw salt = env.pbkdf2 pw salt ITERATIONS KEY_SIZE) ∧
    (decryptFromMeta env { m with iterations := n1 } ct pw).map Prod.snd =
      (decryptFromMeta env { m with iterations := n2 } ct pw).map Prod.snd :=
  ⟨fun _ => rfl, decryptFromMeta_iterations env m ct pw n1 n2⟩

theorem C3_iterations_constant_witness :
    (decryptFromMeta env0 { c3Meta with iterations := some 5 } [] c3Pw).map Prod.snd =
      (decryptFromMeta env0 { c3Meta with iterations := some 999 } [] c3Pw).map Prod.snd :=
  (C3_iterations_constant env0 c3Meta [] c3Pw (some 5) (some 999)).2

/-- C4: the ciphertext written by the encrypt path has the length of the
padded plaintext: a multiple of 16, equal to the plaintext length
rounded up to the next multiple of 16 when not already aligned, and to
the plaintext length plus one full extra block when aligned (so an empty
plaintext yields one full block). -/
theorem C4_ciphertext_length (env : CryptoEnv) (k iv d : List Nat) :
    (env.cbcEnc k iv (pad_data d)).length % 16 = 0 ∧
    (d.length % 16 ≠ 0 →
      (env.cbcEnc k iv (pad_data d)).length = 16 * (d.length / 16 + 1)) ∧
    (d.length % 16 = 0 → (env.cbcEnc k iv (pad_data d)).length = d.length + 16) := by
  refine ⟨?_, ?_, ?_⟩ <;> rw [env.enc_len, pad_data_length] <;> omega

theorem C4_ciphertext_length_witness :
    ((List.replicate 17 (9 : Nat)).length % 16 ≠ 0 ∧
      (env0.cbcEnc [0] [0] (pad_data (List.replicate 17 9))).length =
        16 * ((List.replicate 17 (9 : Nat)).length / 16 + 1)) ∧
    ((List.replicate 16 (9 : Nat)).length % 16 = 0 ∧
      (env0.cbcEnc [0] [0] (pad_data (List.replicate 16 9))).length =
        (List.replicate 16 (9 : Nat)).length + 16) :=
  ⟨⟨by decide, (C4_ciphertext_length env0 [0] [0] (List.replicate 17 9)).2.1 (by decide)⟩,
   ⟨by decide, (C4_ciphertext_length env0 [0] [0] (List.replicate 16 9)).2.2 (by decide)⟩⟩

/-- Metadata object with the required `salt` field missing. -/
def c5Meta : MetaDict :=
  { algorithm := some (strOf "AES-256-CBC")
    iv := some [3]
    original_filename := some (strOf "f.txt") }

/-- A container whose metadata parses as JSON but lacks `salt`. -/
def c5File : List Nat :=
  toBytes4 (jsonEmit0 c5Meta).length ++ jsonEmit0 c5Meta

/-- C5 counterexample: a container whose metadata is valid JSON with a
valid `algorithm` but no `salt` field makes `decrypt_file` raise a
`KeyError` from `metadata['salt']` — a different exception kind from the
format `ValueError`s the claim requires for every missing required
field. -/
theorem C5_missing_field_counterexample :
    decryptData env0 c5File [0] = .error (.keyError .salt) ∧
    (PyErr.keyError .salt ≠ PyErr.invalidFormat) ∧
    (PyErr.keyError .salt ≠ PyErr.invalidMetadata) := by
  decide

/-- C5 amended: a short length prefix and non-JSON metadata do signal
the format `ValueError`s; a missing (or wrong) `algorithm` raises the
distinct unsupported-algorithm `ValueError`; missing `salt`, `iv` or
`original_filename` raise `KeyError`; metadata truncation is caught only
insofar as the truncated bytes fail to parse as JSON. -/
theorem C5_deserialization_errors (env : CryptoEnv) (file : List Nat) (pw : Str)
    (fs : List Str) (m : MetaDict) (pt : List Nat) :
    (file.length < 4 → decryptData env file pw = .error .invalidFormat) ∧
    (4 ≤ file.length →
      env.jsonParse ((file.drop 4).take (fromBytesBE (file.take 4))) = none →
      decryptData env file pw = .error .invalidMetadata) ∧
    (4 ≤ file.length →
      env.jsonParse ((file.drop 4).take (fromBytesBE (file.take 4))) = some m →
      m.algorithm ≠ some (strOf "AES-256-CBC") →
      decryptData env file pw = .error .unsupportedAlgorithm) ∧
    (4 ≤ file.length →
      env.jsonParse ((file.drop 4).take (fromBytesBE (file.take 4))) = some m →
      m.algorithm = some (strOf "AES-256-CBC") →
      m.salt = none →
      decryptData env file pw = .error (.keyError .salt)) ∧
    (∀ sb slt, 4 ≤ file.length →
      env.jsonParse ((file.drop 4).take (fromBytesBE (file.take 4))) = some m →
      m.algorithm = some (strOf "AES-256-CBC") →
      m.salt = some sb → env.b64decode sb = some slt → m.iv = none →
      decryptData env file pw = .error (.keyError .iv)) ∧
    (decryptData env file pw = .ok (m, pt) → m.original_filename = none →
      decrypt_file env fs file pw = .error (.keyError .original_filename)) := by
  have h4 : 4 ≤ file.length → (file.take 4).length = 4 := by
    intro h
    rw [List.length_take]
    omega
  refine ⟨?_, ?_, ?_, ?_, ?_, ?_⟩
  · intro h
    have hne : ¬ 4 ≤ file.length := by omega
    simp [decryptData, List.length_take, hne]
  · intro h hj
    simp [decryptData, h4 h, hj]
  · intro h hj halg
    simp [decryptData, h4 h, hj, decryptFromMeta, halg]
  · intro h hj halg hs
    simp [decryptData, h4 h, hj, decryptFromMeta, halg, hs]
  · intro sb slt h hj halg hs hb hiv
    simp [decryptData, h4 h, hj, decryptFromMeta, halg, hs, hb, hiv]
  · intro hok hof
    simp [decrypt_file, hok, hof]

theorem C5_deserialization_errors_witness :
    ([1, 2] : List Nat).length < 4 ∧
    decryptData env0 [1, 2] [0] = .error .invalidFormat :=
  ⟨by decide, (C5_deserialization_errors env0 [1, 2] [0] [] {} []).1 (by decide)⟩

/-- C6: `verify_encrypted_file` returns `True` exactly when the full
decrypt-and-unpad pipeline succeeds and the recovered plaintext length
equals the metadata's `original_size` (with Python's
`metadata.get('original_size', 0)` default); every failure of the
pipeline is converted to `False` rather than propagated, so the
operation never throws. -/
theorem C6_verify_encrypted_file_spec (env : CryptoEnv) (file : List Nat) (pw : Str) :
    verify_encrypted_file env file pw = true ↔
      ∃ m pt, decryptData env file pw = .ok (m, pt) ∧
        pt.length = m.original_size.getD 0 := by
  unfold verify_encrypted_file
  cases h : decryptData env file pw with
  | error e => simp [h]
  | ok p =>
    rcases p with ⟨m, pt⟩
    simp only [h, beq_iff_eq]
    constructor
    · intro hlen2
      exact ⟨m, pt, rfl, hlen2⟩
    · rintro ⟨m2, pt2, heq, hlen2⟩
      cases heq
      exact hlen2

theorem C6_verify_encrypted_file_spec_witness :
    verify_encrypted_file env0 (encrypt_file env0 (strOf "a.txt") [7] (strOf "pw") [2] [3])
      (strOf "pw") = true :=
  (C6_verify_encrypted_file_spec env0
    (encrypt_file env0 (strOf "a.txt") [7] (strOf "pw") [2] [3]) (strOf "pw")).mpr
    ⟨encryptMetadata env0 (strOf "a.txt") [7] (strOf "pw") [2] [3], [7], by decide, by decide⟩

/-- C7: when the default output name of `decrypt_file` collides with an
existing directory entry, the engine appends `_1`, `_2`, … between the
stem and the extension until a free name is found: with `name` present
it writes `candidateName stem ext 1` (i.e. `stem_1ext`), and with that
also present it writes `stem_2ext`. -/
theorem C7_collision_avoidance (env : CryptoEnv) (fs : List Str) (file : List Nat)
    (pw : Str) (m : MetaDict) (pt : List Nat) (name : Str)
    (hok : decryptData env file pw = .ok (m, pt))
    (hof : m.original_filename = some name) :
    (name ∈ fs → candidateName (pyStem name) (pySuffix name) 1 ∉ fs →
      decrypt_file env fs file pw =
        .ok (candidateName (pyStem name) (pySuffix name) 1, pt)) ∧
    (name ∈ fs → candidateName (pyStem name) (pySuffix name) 1 ∈ fs →
      candidateName (pyStem name) (pySuffix name) 2 ∉ fs →
      decrypt_file env fs file pw =
        .ok (candidateName (pyStem name) (pySuffix name) 2, pt)) := by
  refine ⟨fun h1 h2 => ?_, fun h1 h2 h3 => ?_⟩
  · simp [decrypt_file, hok, hof, resolveOutputName_first fs name h1 h2]
  · simp [decrypt_file, hok, hof, resolveOutputName_second fs name h1 h2 h3]

/-- Container used to exercise collision avoidance concretely. -/
def c7File : List Nat := encrypt_file env0 (strOf "name.txt") [7] (strOf "pw") [2] [3]

/-- Metadata of `c7File`. -/
def c7Meta : MetaDict := encryptMetadata env0 (strOf "name.txt") [7] (strOf "pw") [2] [3]

theorem C7_collision_avoidance_witness :
    decrypt_file env0 [strOf "name.txt"] c7File (strOf "pw") =
      .ok (strOf "name_1.txt", [7]) ∧
    decrypt_file env0 [strOf "name.txt", strOf "name_1.txt"] c7File (strOf "pw") =
      .ok (strOf "name_2.txt", [7]) := by
  constructor
  · have h := (C7_collision_avoidance env0 [strOf "name.txt"] c7File (strOf "pw") c7Meta [7]
      (strOf "name.txt") (by decide) (by decide)).1 (by decide) (by decide)
    rw [show candidateName (pyStem (strOf "name.txt")) (pySuffix (strOf "name.txt")) 1 =
      strOf "name_1.txt" from by decide] at h
    exact h
  · have h := (C7_collision_avoidance env0 [strOf "name.txt", strOf "name_1.txt"] c7File
      (strOf "pw") c7Meta [7] (strOf "name.txt") (by decide) (by decide)).2
      (by decide) (by decide) (by decide)
    rw [show candidateName (pyStem (strOf "name.txt")) (pySuffix (strOf "name.txt")) 2 =
      strOf "name_2.txt" from by decide] at h
    exact h

/-- C8 counterexample: `batch_encrypt_files` has no per-item isolation.
With one unreadable path first and two readable paths after it, the
`OSError` from the unreadable entry propagates and aborts the whole
batch, so no output at all is produced for the two readable entries. -/
theorem C8_batch_abort_counterexample :
    batch_encrypt_files env0 (strOf "pw") [2] [3]
        [(strOf "bad", .unreadable), (strOf "a", .readable [7]), (strOf "b", .readable [8])] =
      .error .osError ∧
    batch_encrypt_files env0 (strOf "pw") [2] [3]
        [(strOf "bad", .unreadable), (strOf "a", .readable [7]), (strOf "b", .readable [8])] ≠
      .ok [strOf "a.encrypted", strOf "b.encrypted"] := by
  decide

/-- C8 amended: the only per-item guard in `batch_encrypt_files` is the
`is_file()` check — entries that are not regular files are skipped
without aborting, so one missing path and two readable paths still yield
the two encrypted outputs; but an exception raised while encrypting a
regular file (e.g. an unreadable one) propagates and aborts the whole
batch. -/
theorem C8_batch_isolation_amended (env : CryptoEnv) (pw salt iv : List Nat)
    (n1 n2 n3 : Str) (c1 c2 : List Nat) :
    batch_encrypt_files env pw salt iv
        [(n1, .notFile), (n2, .readable c1), (n3, .readable c2)] =
      .ok [n2 ++ strOf ".encrypted", n3 ++ strOf ".encrypted"] ∧
    (∀ nm rest, batch_encrypt_files env pw salt iv ((nm, PathState.unreadable) :: rest) =
      .error .osError) := by
  constructor
  · simp [batch_encrypt_files, encryptPath, PathState.isFileB]
  · intro nm rest
    simp [batch_encrypt_files, encryptPath, PathState.isFileB]

theorem C8_batch_isolation_amended_witness :
    batch_encrypt_files env0 (strOf "pw") [2] [3]
        [(strOf "gone", .notFile), (strOf "a", .readable [7]), (strOf "b", .readable [8])] =
      .ok [strOf "a" ++ strOf ".encrypted", strOf "b" ++ strOf ".encrypted"] :=
  (C8_batch_isolation_amended env0 (strOf "pw") [2] [3] (strOf "gone") (strOf "a") (strOf "b")
    [7] [8]).1

/-- Metadata whose `salt` and `iv` are valid base64 but whose IV decodes
to only 3 bytes — not the 16 that `modes.CBC` requires. -/
def c9Meta : MetaDict :=
  { original_filename := some (strOf "f.txt")
    salt := some [2]
    iv := some [1, 2, 3]
    algorithm := some (strOf "AES-256-CBC") }

/-- A container whose prefix, metadata JSON and base64 salt/iv all parse
but whose decoded IV is 3 bytes long. -/
def c9File : List Nat :=
  toBytes4 (jsonEmit0 c9Meta).length ++ jsonEmit0 c9Meta

/-- C9 counterexample: a file whose 4-byte prefix, metadata JSON and
base64 `salt`/`iv` fields all parse successfully (`vpParseOk`), but
whose decoded IV is 3 bytes: `Cipher(modes.CBC(iv))` raises inside
`verify_password`'s `try`, so the real function returns `False` for
every password — not `True` as the claim asserts (two different
passwords shown, underscoring that the `False` is password-independent
too). -/
theorem C9_short_iv_counterexample :
    vpParseOk env0 c9File = true ∧
    verify_password env0 c9File [0] = false ∧
    verify_password env0 c9File (strOf "pw") = false := by
  decide

/-- C9 amended: the result of `verify_password` does not depend on the
password at all, and it returns `True` exactly when the length prefix,
the metadata JSON and the base64 `salt`/`iv` fields parse successfully
**and** the decoded IV is 16 bytes (the size `modes.CBC` validates at
cipher construction, inside the `try`): then the partial CBC `update` on
the first 32 ciphertext bytes is performed, discarded, and cannot fail,
for any key. -/
theorem C9_verify_password_corrected (env : CryptoEnv) (file : List Nat) (pw pw2 : Str) :
    verify_password env file pw = verify_password env file pw2 ∧
    (vpSucceeds env file = true → verify_password env file pw = true) ∧
    (vpSucceeds env file = false → verify_password env file pw = false) := by
  refine ⟨?_, ?_, ?_⟩
  · rw [verify_password_eq_vpSucceeds, verify_password_eq_vpSucceeds]
  · intro h
    rw [verify_password_eq_vpSucceeds, h]
  · intro h
    rw [verify_password_eq_vpSucceeds, h]

theorem C9_verify_password_corrected_witness :
    vpSucceeds env0
      (encrypt_file env0 (strOf "a.txt") [7] (strOf "pw") [2] (List.replicate 16 3)) = true ∧
    verify_password env0
      (encrypt_file env0 (strOf "a.txt") [7] (strOf "pw") [2] (List.replicate 16 3))
      (strOf "wrong") = true :=
  ⟨by decide,
   (C9_verify_password_corrected env0
     (encrypt_file env0 (strOf "a.txt") [7] (strOf "pw") [2] (List.replicate 16 3))
     (strOf "wrong") (strOf "pw")).2.1 (by decide)⟩

/-- C10: for an existing regular file whose filename suffix lower-cases
to `.encrypted`, `is_encrypted_file` returns `True` from the extension
check alone — the result is the same for any file contents, and no
container structure or metadata field is consulted. -/
theorem C10_extension_shortcut (env : CryptoEnv) (name : Str) (content : List Nat) :
    (pyToLower (pySuffix name) = strOf ".encrypted" →
      is_encrypted_file env ⟨true, true, name, content⟩ = true) ∧
    (∀ c2, pyToLower (pySuffix name) = strOf ".encrypted" →
      is_encrypted_file env ⟨true, true, name, content⟩ =
        is_encrypted_file env ⟨true, true, name, c2⟩) := by
  have main : ∀ c : List Nat, pyToLower (pySuffix name) = strOf ".encrypted" →
      is_encrypted_file env ⟨true, true, name, c⟩ = true := by
    intro c h
    simp [is_encrypted_file, h]
  exact ⟨main content, fun c2 h => by rw [main content h, main c2 h]⟩

theorem C10_extension_shortcut_witness :
    pyToLower (pySuffix (strOf "x.EnCrYpTeD")) = strOf ".encrypted" ∧
    is_encrypted_file env0 ⟨true, true, strOf "x.EnCrYpTeD", [9, 9]⟩ = true :=
  ⟨by decide, (C10_extension_shortcut env0 (strOf "x.EnCrYpTeD") [9, 9]).1 (by decide)⟩

end ChronoFiler
